import Mathlib

/-!
Verification development for the personal-finance calculator
(`src/components/Calculator.tsx`, `src/App.tsx`, the history view, and
`src/types.ts`).

Modelling conventions (shallow embedding of the TypeScript source):
* JavaScript strings are modelled as `List Char` (`JStr`); this keeps every
  string operation kernel-reducible.
* JavaScript numbers are modelled exactly: a finite double is a rational, so
  the finite values live in `ℚ` and the non-finite values (`NaN`, `±Infinity`)
  are separate constructors of `JNum`.  Binary floating-point rounding error
  is not modelled (the spec explicitly excludes exact floating-point
  precision from its guarantees); consequently overflow of `+ - ×` to
  `Infinity` does not occur in the model.
* `Math.pow` on non-integer exponents, `Math.sqrt`, the degree-based trig
  functions, `Math.log10`/`Math.log`, and the double approximations of
  `Math.PI`/`Math.E` have no exact rational definition; they are passed to
  the engine as an explicit parameter record `MathPrims` (`none` encodes a
  non-finite result).  Everything the verified claims depend on is either
  independent of these primitives or exact (integer exponents of `Math.pow`).
* Untrusted AI responses are modelled by the JSON-like type `JSValue`.
-/

/-- JavaScript strings, modelled as their list of characters. -/
abbrev JStr := List Char

/-- A JavaScript number: a finite double (an exact rational), `NaN`, or
`±Infinity`. -/
inductive JNum where
  | fin (q : ℚ)
  | nan
  | inf (neg : Bool)
  deriving DecidableEq

/-- A JSON-like JavaScript value, as delivered by the untrusted AI service. -/
inductive JSValue where
  | nullV
  | undefV
  | boolV (b : Bool)
  | numV (n : JNum)
  | strV (s : JStr)
  | arrV (elems : List JSValue)
  | objV (fields : List (JStr × JSValue))

instance : Inhabited JSValue := ⟨.undefV⟩

/-- JavaScript truthiness: `undefined`, `null`, `false`, `0`, `NaN` and the
empty string are falsy; every object and array is truthy. -/
def jsTruthy : JSValue → Bool
  | .nullV => false
  | .undefV => false
  | .boolV b => b
  | .numV (.fin q) => q ≠ 0
  | .numV .nan => false
  | .numV (.inf _) => true
  | .strV s => !s.isEmpty
  | .arrV _ => true
  | .objV _ => true

/-- `typeof v === 'object'` in JavaScript: true for objects, arrays and
`null`. -/
def isObjectType : JSValue → Bool
  | .nullV => true
  | .arrV _ => true
  | .objV _ => true
  | _ => false

/-- First-match lookup in an object's field list; a missing field reads as
`undefined`, as in JavaScript. -/
def getField : List (JStr × JSValue) → JStr → JSValue
  | [], _ => .undefV
  | (k, v) :: rest, key => if k = key then v else getField rest key

/-- Property access `v.key`.  In the source this is only ever performed on
values that passed the `typeof === 'object'` plus truthiness guard; reading a
named property from an array yields `undefined`. -/
def propGet (v : JSValue) (key : JStr) : JSValue :=
  match v with
  | .objV fields => getField fields key
  | _ => .undefV

/-- Whitespace for `String.prototype.trim` (the whitespace characters that
actually occur in the data handled here). -/
def isWS (c : Char) : Bool :=
  c = ' ' ∨ c = '\t' ∨ c = '\n' ∨ c = '\r'

/-- Left side of `String.prototype.trim`. -/
def trimLeft (s : JStr) : JStr := s.dropWhile isWS

/-- Right side of `String.prototype.trim`. -/
def trimRight (s : JStr) : JStr := List.rdropWhile isWS s

/-- `String.prototype.trim`. -/
def trimStr (s : JStr) : JStr := trimRight (trimLeft s)

/-- Decimal digits of a natural number. -/
def natToChars (n : ℕ) : JStr := Nat.toDigits 10 n

/-- Decimal rendering of an integer. -/
def intToChars (n : ℤ) : JStr :=
  if n < 0 then '-' :: natToChars n.natAbs else natToChars n.natAbs

/-- Abstraction of JavaScript number-to-string conversion (`String(x)` and
template interpolation) for finite values.  It agrees with JavaScript on
integers, never produces the empty string or whitespace, and is used only to
build display/trace text. -/
def numStr (q : ℚ) : JStr :=
  if q.den = 1 then intToChars q.num
  else intToChars q.num ++ '/' :: natToChars q.den

/-- String rendering of a number, including the non-finite values. -/
def jnumStr : JNum → JStr
  | .fin q => numStr q
  | .nan => "NaN".toList
  | .inf false => "Infinity".toList
  | .inf true => "-Infinity".toList

mutual
/-- JavaScript `String(v)` coercion.  Arrays render as their elements joined
with commas (with `null`/`undefined` elements rendering as the empty string),
objects as the literal `[object Object]`. -/
def jsToString : JSValue → JStr
  | .nullV => "null".toList
  | .undefV => "undefined".toList
  | .boolV b => cond b "true".toList "false".toList
  | .numV n => jnumStr n
  | .strV s => s
  | .objV _ => "[object Object]".toList
  | .arrV xs => jsJoinElems xs

/-- Comma-join of array elements for `Array.prototype.toString`. -/
def jsJoinElems : List JSValue → JStr
  | [] => []
  | [x] => jsElemString x
  | x :: xs => jsElemString x ++ ',' :: jsJoinElems xs

/-- One array element inside `Array.prototype.toString`: `null` and
`undefined` contribute the empty string. -/
def jsElemString : JSValue → JStr
  | .nullV => []
  | .undefV => []
  | v => jsToString v
end

/-- Decimal value of one digit character. -/
def digitVal (c : Char) : ℕ := c.toNat - '0'.toNat

/-- Value of a list of decimal digit characters. -/
def digitsToNat (ds : List Char) : ℕ :=
  ds.foldl (fun acc c => 10 * acc + digitVal c) 0

/-- The unsigned part of `parseFloat`: the longest prefix of the form
`digits [. digits]` or `. digits`; `none` when no digit is found (`NaN`). -/
def parseMantissa (cs : List Char) : Option ℚ :=
  let ds := cs.takeWhile Char.isDigit
  match cs.dropWhile Char.isDigit with
  | '.' :: rest =>
      let fs := rest.takeWhile Char.isDigit
      if ds.isEmpty && fs.isEmpty then none
      else some ((digitsToNat ds : ℚ) + (digitsToNat fs : ℚ) / 10 ^ fs.length)
  | _ => if ds.isEmpty then none else some ((digitsToNat ds : ℚ))

/-- JavaScript `parseFloat`, for the strings this program feeds it: every
call site first strips the string down to the characters `0-9`, `.` and `-`,
so exponent notation, `Infinity` and interior whitespace cannot occur.
`none` encodes `NaN`. -/
def jsParseFloat (s : JStr) : Option ℚ :=
  match s.dropWhile isWS with
  | '-' :: rest => (parseMantissa rest).map (fun q => -q)
  | '+' :: rest => parseMantissa rest
  | cs => parseMantissa cs

/-- The character filter of `value.replace(/[^0-9.-]+/g, "")`. -/
def cleanAmountStr (s : JStr) : JStr :=
  s.filter (fun c => c.isDigit || c = '.' || c = '-')

/-- `parseFloat(x.toFixed(2))`: rounding to two decimal places. -/
def round2 (q : ℚ) : ℚ := ((round (q * 100) : ℤ) : ℚ) / 100

/-- One sanitized line item (`{ description: string; amount: number }` from
`types.ts`, with the amount known finite). -/
structure SanItem where
  description : JStr
  amount : ℚ
  deriving DecidableEq

/-- `CalculationResult` from `types.ts`. -/
structure CalculationResult where
  total : ℚ
  category : JStr
  items : List SanItem
  deriving DecidableEq

/-- Field names used by the sanitizer. -/
def itemsKey : JStr := "items".toList

/-- The `amount` field name. -/
def amountKey : JStr := "amount".toList

/-- The `description` field name. -/
def descriptionKey : JStr := "description".toList

/-- The `category` field name. -/
def categoryKey : JStr := "category".toList

/-- The `total` field name (present in AI responses, ignored by the code). -/
def totalKey : JStr := "total".toList

/-- The placeholder description. -/
def unnamedItem : JStr := "Unnamed Item".toList

/-- The fallback category. -/
def uncategorized : JStr := "Uncategorized".toList

/-- Error message of the format-error branch of the sanitizer. -/
def invalidFormatMsg : JStr :=
  "Invalid response format from AI. Expected an object.".toList

/-- The body of the item loop of `validateAndSanitizeScanResult`: `none`
means the `continue` branches (non-object entry, unparsable or ill-typed
amount); otherwise the sanitized item that gets pushed. -/
def sanitizeItem (item : JSValue) : Option SanItem :=
  if !(jsTruthy item) || !(isObjectType item) then none
  else
    let amt? : Option ℚ :=
      match propGet item amountKey with
      | .numV (.fin q) => some q
      | .strV s => jsParseFloat (cleanAmountStr s)
      | _ => none
    match amt? with
    | none => none
    | some amount =>
        let d := propGet item descriptionKey
        let description :=
          trimStr (jsToString (if jsTruthy d then d else .strV unnamedItem))
        some ⟨description, round2 amount⟩

/-- The `for`-loop over `items` in `validateAndSanitizeScanResult`, pushing
each accepted item in order. -/
def sanitizeItems : List JSValue → List SanItem
  | [] => []
  | item :: rest =>
      match sanitizeItem item with
      | none => sanitizeItems rest
      | some it => it :: sanitizeItems rest

/-- `validateAndSanitizeScanResult` (`Calculator.tsx`).  A thrown `Error` is
modelled as `Except.error` carrying the message. -/
def validateAndSanitizeScanResult (rawResult : JSValue) :
    Except JStr CalculationResult :=
  if !(jsTruthy rawResult) || !(isObjectType rawResult) then
    .error invalidFormatMsg
  else
    let items := match propGet rawResult itemsKey with
      | .arrV xs => xs
      | _ => []
    let sanitizedItems := sanitizeItems items
    let total := sanitizedItems.foldl (fun sum it => sum + it.amount) 0
    let c := propGet rawResult categoryKey
    .ok ⟨round2 total,
         trimStr (jsToString (if jsTruthy c then c else .strV uncategorized)),
         sanitizedItems⟩

/-- Modelled from the spec wording of claim C1: an `amount` value resolves
iff it is a finite number (used as-is) or a string that, after stripping
every character other than digits, `.` and `-`, parses to a finite float. -/
def specResolveAmount (v : JSValue) : Option ℚ :=
  match v with
  | .numV (.fin q) => some q
  | .strV s => jsParseFloat (s.filter (fun c => c.isDigit || c = '.' || c = '-'))
  | _ => none

/-- Modelled from the spec wording of claim C1: an element of `raw.items` is
kept iff it is a (truthy) object whose `amount` resolves. -/
def specItemKept (v : JSValue) : Bool :=
  jsTruthy v && isObjectType v && (specResolveAmount (propGet v amountKey)).isSome

/-- Evaluation lemmas for digit characters (used by `simp`/`norm_num` when a
theorem evaluates the embedding on concrete inputs). -/
@[simp] theorem digitVal_0 : digitVal '0' = 0 := by decide

/-- Digit value of the character 1. -/
@[simp] theorem digitVal_1 : digitVal '1' = 1 := by decide

/-- Digit value of the character 2. -/
@[simp] theorem digitVal_2 : digitVal '2' = 2 := by decide

/-- Digit value of the character 3. -/
@[simp] theorem digitVal_3 : digitVal '3' = 3 := by decide

/-- Digit value of the character 4. -/
@[simp] theorem digitVal_4 : digitVal '4' = 4 := by decide

/-- Digit value of the character 5. -/
@[simp] theorem digitVal_5 : digitVal '5' = 5 := by decide

/-- Digit value of the character 6. -/
@[simp] theorem digitVal_6 : digitVal '6' = 6 := by decide

/-- Digit value of the character 7. -/
@[simp] theorem digitVal_7 : digitVal '7' = 7 := by decide

/-- Digit value of the character 8. -/
@[simp] theorem digitVal_8 : digitVal '8' = 8 := by decide

/-- Digit value of the character 9. -/
@[simp] theorem digitVal_9 : digitVal '9' = 9 := by decide

/-- Base case of `digitsToNat`. -/
@[simp] theorem digitsToNat_nil : digitsToNat [] = 0 := rfl

/-- Unfolding step for `digitsToNat` on a concrete list. -/
@[simp] theorem digitsToNat_cons (c : Char) (ds : List Char) :
    digitsToNat (c :: ds) = ds.foldl (fun acc d => 10 * acc + digitVal d) (digitVal c) := by
  simp [digitsToNat, List.foldl]

-- Sanity examples (concrete evaluation of the embedding).
example : jsParseFloat (cleanAmountStr "$2.50".toList) = some (5/2) := by
  norm_num +decide [jsParseFloat, cleanAmountStr, parseMantissa, isWS]
example : jsParseFloat (cleanAmountStr "bogus".toList) = none := by decide
example : round2 (5/2) = 5/2 := by
  norm_num [round2, round_eq]
example : trimStr "  Milk ".toList = "Milk".toList := by decide

/-- Restatement of the item loop body with the spec-side amount resolver
factored out; both sides are definitionally the same decision tree. -/
theorem sanitizeItem_eq (v : JSValue) :
    sanitizeItem v =
      if jsTruthy v && isObjectType v then
        match specResolveAmount (propGet v amountKey) with
        | none => none
        | some amount =>
            some ⟨trimStr (jsToString
                    (if jsTruthy (propGet v descriptionKey) then
                       propGet v descriptionKey
                     else .strV unnamedItem)),
                  round2 amount⟩
      else none := by
  cases hT : jsTruthy v <;> cases hO : isObjectType v <;>
    simp [sanitizeItem, specResolveAmount, cleanAmountStr, hT, hO]

/-- The item loop keeps exactly the elements accepted by `sanitizeItem`, in
their original order. -/
theorem sanitizeItems_eq_filterMap (xs : List JSValue) :
    sanitizeItems xs = xs.filterMap sanitizeItem := by
  induction xs with
  | nil => rfl
  | cons x xs ih =>
      cases h : sanitizeItem x <;> simp [sanitizeItems, h, ih]

/-- The raw payload of the concrete example in claim C1. -/
def c1MilkItem : JSValue :=
  .objV [(descriptionKey, .strV "Milk".toList), (amountKey, .strV "$2.50".toList)]

/-- The second (rejected) item of the concrete example in claim C1. -/
def c1TaxItem : JSValue :=
  .objV [(descriptionKey, .strV "Tax".toList), (amountKey, .strV "bogus".toList)]

/-- The full raw payload of the concrete example in claim C1. -/
def c1Example : JSValue :=
  .objV [(itemsKey, .arrV [c1MilkItem, c1TaxItem]),
         (categoryKey, .strV "Groceries".toList)]

/-- Claim C1: `validateAndSanitizeScanResult` keeps exactly the elements of
`raw.items` that are objects with a resolvable amount (finite number, or
string parsing to a finite float after stripping characters other than
digits, `.`, `-`), in order, each stored amount rounded to two decimals; the
total is the re-rounded sum of the stored amounts and any AI-supplied
`total` field is ignored; and the Milk/Tax example evaluates as stated. -/
theorem c1_sanitize_characterization :
    (∀ v : JSValue, (sanitizeItem v).isSome ↔ specItemKept v = true)
    ∧ (∀ (v : JSValue) (it : SanItem), sanitizeItem v = some it →
        ∃ q, specResolveAmount (propGet v amountKey) = some q ∧
          it.amount = round2 q)
    ∧ (∀ xs : List JSValue, sanitizeItems xs = xs.filterMap sanitizeItem)
    ∧ (∀ (raw : JSValue) (r : CalculationResult),
        validateAndSanitizeScanResult raw = .ok r →
        r.total = round2 (r.items.foldl (fun s it => s + it.amount) 0))
    ∧ (∀ (fields : List (JStr × JSValue)) (v₁ v₂ : JSValue),
        validateAndSanitizeScanResult (.objV ((totalKey, v₁) :: fields)) =
        validateAndSanitizeScanResult (.objV ((totalKey, v₂) :: fields)))
    ∧ validateAndSanitizeScanResult c1Example =
        .ok ⟨5/2, "Groceries".toList, [⟨"Milk".toList, 5/2⟩]⟩ := by
  refine ⟨?_, ?_, ?_, ?_, ?_, ?_⟩
  · intro v
    rw [sanitizeItem_eq]
    cases hT : jsTruthy v <;> cases hO : isObjectType v <;>
      cases hA : specResolveAmount (propGet v amountKey) <;>
        simp [specItemKept, hT, hO, hA]
  · intro v it h
    rw [sanitizeItem_eq] at h
    cases hT : jsTruthy v <;> cases hO : isObjectType v <;>
      cases hA : specResolveAmount (propGet v amountKey) <;>
        simp [hT, hO, hA] at h
    exact ⟨_, rfl, by rw [← h]⟩
  · exact sanitizeItems_eq_filterMap
  · intro raw r h
    unfold validateAndSanitizeScanResult at h
    split at h
    · exact absurd h (by simp)
    · injection h with h
      subst h
      rfl
  · intro fields v₁ v₂
    simp +decide [validateAndSanitizeScanResult, propGet, getField,
      jsTruthy, isObjectType, itemsKey, categoryKey, totalKey]
  · norm_num +decide [c1Example, c1MilkItem, c1TaxItem,
      validateAndSanitizeScanResult, sanitizeItems, sanitizeItem, propGet,
      getField, jsTruthy, isObjectType, jsToString, trimStr, trimLeft,
      trimRight, isWS, cleanAmountStr, jsParseFloat, parseMantissa,
      round2, round_eq, itemsKey, amountKey, descriptionKey, categoryKey]

/-- Witness for claim C1: the hypothesis-bearing conjunct evaluated on the
Milk item of the example payload. -/
theorem c1_sanitize_characterization_witness :
    ∃ q, specResolveAmount (propGet c1MilkItem amountKey) = some q ∧
      (⟨"Milk".toList, (5 : ℚ)/2⟩ : SanItem).amount = round2 q :=
  c1_sanitize_characterization.2.1 c1MilkItem ⟨"Milk".toList, 5/2⟩
    (by norm_num +decide [c1MilkItem, sanitizeItem, propGet, getField,
          jsTruthy, isObjectType, jsToString, trimStr, trimLeft, trimRight,
          isWS, cleanAmountStr, jsParseFloat, parseMantissa, round2,
          round_eq, amountKey, descriptionKey])

/-- Claim C9: the sanitizer is total on truthy values of JavaScript type
`object`: it succeeds exactly on arrays and plain objects, an array input
yielding the empty result with total 0 and category `Uncategorized`; every
other input (including `null`) takes the format-error branch. -/
theorem c9_sanitize_total_on_objects :
    (∀ v : JSValue,
      (∃ r, validateAndSanitizeScanResult v = .ok r) ↔
        (∃ xs, v = .arrV xs) ∨ (∃ fields, v = .objV fields))
    ∧ (∀ xs, validateAndSanitizeScanResult (.arrV xs) =
        .ok ⟨0, "Uncategorized".toList, []⟩) := by
  have harr : ∀ xs, validateAndSanitizeScanResult (.arrV xs) =
      .ok ⟨0, "Uncategorized".toList, []⟩ := by
    intro xs
    norm_num +decide [validateAndSanitizeScanResult, sanitizeItems, propGet,
      jsTruthy, isObjectType, jsToString, trimStr, trimLeft, trimRight,
      isWS, round2, round_eq, uncategorized]
  refine ⟨?_, harr⟩
  intro v
  constructor
  · rintro ⟨r, hr⟩
    cases v with
    | arrV xs => exact Or.inl ⟨xs, rfl⟩
    | objV fields => exact Or.inr ⟨fields, rfl⟩
    | nullV => simp [validateAndSanitizeScanResult, jsTruthy] at hr
    | undefV => simp [validateAndSanitizeScanResult, isObjectType] at hr
    | boolV b => simp [validateAndSanitizeScanResult, isObjectType] at hr
    | numV n => simp [validateAndSanitizeScanResult, isObjectType] at hr
    | strV s => simp [validateAndSanitizeScanResult, isObjectType] at hr
  · rintro (⟨xs, rfl⟩ | ⟨fields, rfl⟩)
    · exact ⟨_, harr xs⟩
    · exact ⟨_, rfl⟩

/-- A list already fixed by `dropWhile` stays fixed after trimming its right
end. -/
theorem dropWhile_rdropWhile_fixed {p : Char → Bool} {m : JStr}
    (hm : m.dropWhile p = m) :
    (m.rdropWhile p).dropWhile p = m.rdropWhile p := by
  rw [List.dropWhile_eq_self_iff]
  intro h
  have hpre := List.rdropWhile_prefix p m
  have hlen : 0 < m.length := lt_of_lt_of_le h hpre.length_le
  have h2 : (m.rdropWhile p).get ⟨0, h⟩ = m.get ⟨0, hlen⟩ := by
    simp only [List.get_eq_getElem]
    exact hpre.getElem h
  rw [h2]
  exact List.dropWhile_eq_self_iff.mp hm hlen

/-- `String.prototype.trim` is idempotent. -/
theorem trimStr_idem (s : JStr) : trimStr (trimStr s) = trimStr s := by
  unfold trimStr trimLeft trimRight
  rw [dropWhile_rdropWhile_fixed (List.dropWhile_idempotent isWS s),
    List.rdropWhile_idempotent]

/-- Rounding to two decimals is idempotent. -/
theorem round2_idem (q : ℚ) : round2 (round2 q) = round2 q := by
  unfold round2
  have h : ((round (q * 100) : ℤ) : ℚ) / 100 * 100 = ((round (q * 100) : ℤ) : ℚ) := by
    field_simp
  rw [h, round_intCast]

/-- One sanitized item viewed again as a raw JavaScript value. -/
def itemToRaw (it : SanItem) : JSValue :=
  .objV [(descriptionKey, .strV it.description),
         (amountKey, .numV (.fin it.amount))]

/-- The sanitizer's own output, fed back to it as a raw payload (how claim C5
re-runs `sanitize` on its result). -/
def resultToRaw (r : CalculationResult) : JSValue :=
  .objV [(itemsKey, .arrV (r.items.map itemToRaw)),
         (totalKey, .numV (.fin r.total)),
         (categoryKey, .strV r.category)]

/-- A successful sanitizer run whose single item has a whitespace-only
description. -/
def c5Raw : JSValue :=
  .objV [(itemsKey, .arrV [.objV [(descriptionKey, .strV [' ']),
                                  (amountKey, .numV (.fin 1))]]),
         (categoryKey, .strV ['X'])]

/-- The output of the sanitizer on `c5Raw`: the description trims to the
empty string. -/
def c5Res : CalculationResult := ⟨1, ['X'], [⟨[], 1⟩]⟩

/-- Counterexample to claim C5: the sanitizer succeeds on `c5Raw`, producing
an item whose description is the empty string; re-running the sanitizer on
that output replaces the empty description with `Unnamed Item`, so the
result is not identical. -/
theorem c5_counterexample :
    validateAndSanitizeScanResult c5Raw = .ok c5Res ∧
    validateAndSanitizeScanResult (resultToRaw c5Res) ≠ .ok c5Res := by
  constructor
  · norm_num +decide [c5Raw, c5Res, validateAndSanitizeScanResult,
      sanitizeItems, sanitizeItem, propGet, getField, jsTruthy, isObjectType,
      jsToString, trimStr, trimLeft, trimRight, List.rdropWhile, isWS,
      round2, round_eq, itemsKey, amountKey, descriptionKey, categoryKey]
  · norm_num +decide [c5Raw, c5Res, resultToRaw, validateAndSanitizeScanResult,
      sanitizeItems, sanitizeItem, propGet, getField, jsTruthy, isObjectType,
      jsToString, trimStr, trimLeft, trimRight, List.rdropWhile, isWS,
      round2, round_eq, itemsKey, amountKey, descriptionKey, categoryKey,
      totalKey, unnamedItem]

/-- Shape of a sanitized item: its description is trim-stable and its amount
is round2-stable. -/
theorem sanitizeItem_shape {v : JSValue} {it : SanItem}
    (h : sanitizeItem v = some it) :
    trimStr it.description = it.description ∧ round2 it.amount = it.amount := by
  rw [sanitizeItem_eq] at h
  split at h
  · split at h
    · exact absurd h (by simp)
    · injection h with h
      subst h
      exact ⟨trimStr_idem _, round2_idem _⟩
  · exact absurd h (by simp)

/-- Shape of a successful sanitizer run: the items all come from
`sanitizeItem`, the total is the re-rounded sum, and the category is
trim-stable. -/
theorem validate_ok_shape {raw : JSValue} {r : CalculationResult}
    (h : validateAndSanitizeScanResult raw = .ok r) :
    (∀ it ∈ r.items, ∃ v, sanitizeItem v = some it)
    ∧ r.total = round2 (r.items.foldl (fun s it => s + it.amount) 0)
    ∧ trimStr r.category = r.category := by
  unfold validateAndSanitizeScanResult at h
  split at h
  · exact absurd h (by simp)
  · injection h with h
    subst h
    refine ⟨?_, rfl, trimStr_idem _⟩
    intro it hit
    have hmem := hit
    rw [sanitizeItems_eq_filterMap] at hmem
    obtain ⟨v, _, hv⟩ := List.mem_filterMap.mp hmem
    exact ⟨v, hv⟩

/-- A trim-stable, round2-stable item with a nonempty description survives
re-sanitization unchanged. -/
theorem sanitizeItem_itemToRaw {it : SanItem} (hd : it.description ≠ [])
    (hts : trimStr it.description = it.description)
    (hrs : round2 it.amount = it.amount) :
    sanitizeItem (itemToRaw it) = some it := by
  have hie : it.description.isEmpty = false := by
    cases hh : it.description
    · exact absurd hh hd
    · rfl
  simp +decide [sanitizeItem_eq, itemToRaw, propGet, getField, jsTruthy,
    isObjectType, jsToString, specResolveAmount, descriptionKey, amountKey,
    hie, hts, hrs]

/-- Lifting `sanitizeItem_itemToRaw` over a list of items. -/
theorem sanitizeItems_itemToRaw {items : List SanItem}
    (h : ∀ it ∈ items, it.description ≠ [] ∧
      trimStr it.description = it.description ∧ round2 it.amount = it.amount) :
    sanitizeItems (items.map itemToRaw) = items := by
  induction items with
  | nil => rfl
  | cons it rest ih =>
      obtain ⟨h1, h2, h3⟩ := h it (by simp)
      simp only [List.map_cons, sanitizeItems, sanitizeItem_itemToRaw h1 h2 h3,
        ih (fun x hx => h x (by simp [hx]))]

/-- Claim C5 as amended: re-running the sanitizer on its own output yields an
identical result, provided no kept item's description trimmed to the empty
string and the category did not trim to the empty string (the counterexample
shows both provisos are necessary in general). -/
theorem c5_sanitize_idempotent_amended (raw : JSValue) (r : CalculationResult)
    (h : validateAndSanitizeScanResult raw = .ok r)
    (hdesc : ∀ it ∈ r.items, it.description ≠ [])
    (hcat : r.category ≠ []) :
    validateAndSanitizeScanResult (resultToRaw r) = .ok r := by
  obtain ⟨hitems, htotal, hcatstable⟩ := validate_ok_shape h
  have hstable : ∀ it ∈ r.items, it.description ≠ [] ∧
      trimStr it.description = it.description ∧
      round2 it.amount = it.amount := by
    intro it hit
    obtain ⟨v, hv⟩ := hitems it hit
    obtain ⟨hts, hrs⟩ := sanitizeItem_shape hv
    exact ⟨hdesc it hit, hts, hrs⟩
  have hcie : r.category.isEmpty = false := by
    cases hh : r.category
    · exact absurd hh hcat
    · rfl
  unfold validateAndSanitizeScanResult resultToRaw
  simp +decide [propGet, getField, jsTruthy, isObjectType, jsToString,
    itemsKey, categoryKey, totalKey, sanitizeItems_itemToRaw hstable, hcie,
    hcatstable, ← htotal]

/-- Witness for the amended claim C5: the example payload of claim C1
satisfies both provisos, and re-sanitizing its output reproduces it. -/
theorem c5_sanitize_idempotent_amended_witness :
    validateAndSanitizeScanResult
      (resultToRaw ⟨5/2, "Groceries".toList, [⟨"Milk".toList, 5/2⟩]⟩) =
    .ok ⟨5/2, "Groceries".toList, [⟨"Milk".toList, 5/2⟩]⟩ :=
  c5_sanitize_idempotent_amended c1Example _
    (by norm_num +decide [c1Example, c1MilkItem, c1TaxItem,
      validateAndSanitizeScanResult, sanitizeItems, sanitizeItem, propGet,
      getField, jsTruthy, isObjectType, jsToString, trimStr, trimLeft,
      trimRight, List.rdropWhile, isWS, cleanAmountStr, jsParseFloat,
      parseMantissa, round2, round_eq, itemsKey, amountKey, descriptionKey,
      categoryKey])
    (by intro it hit; simp at hit; subst hit; decide)
    (by decide)

/-- The calculator display: either the literal string `Error` or a numeric
display string, abstracted by the value `parseFloat` reads off it.  (The
character-level mechanics of composing an entry — the 15-character cap and
the in-progress decimal point — concern only the display text and are
abstracted; no claim under verification depends on them.) -/
inductive Disp where
  | err
  | num (v : ℚ)
  deriving DecidableEq

/-- The five binary operators of the keypad. -/
inductive Op where
  | add
  | sub
  | mul
  | div
  | pow
  deriving DecidableEq

/-- The seven unary scientific operations. -/
inductive UOp where
  | sq
  | sqrt
  | sin
  | cos
  | tan
  | log
  | ln
  deriving DecidableEq

/-- The two constants of the scientific keypad. -/
inductive Const where
  | piC
  | eC
  deriving DecidableEq

/-- The `Math` primitives whose exact double values are not rationally
definable, passed to the engine as parameters.  `none` encodes a non-finite
result.  `powNI` is `Math.pow` restricted to non-integer exponents; the trig
fields already include the degree-to-radian conversion performed by the
source (`Math.sin(x * Math.PI / 180)` etc.). -/
structure MathPrims where
  powNI : ℚ → ℚ → Option ℚ
  sqrtV : ℚ → Option ℚ
  sinDeg : ℚ → Option ℚ
  cosDeg : ℚ → Option ℚ
  tanDeg : ℚ → Option ℚ
  log10V : ℚ → Option ℚ
  lnV : ℚ → Option ℚ
  piV : ℚ
  eV : ℚ

/-- `Math.pow`: exact for integer exponents (`0 ** negative` is `Infinity`,
hence `none`); delegated to the primitive for non-integer exponents. -/
def jsPow (P : MathPrims) (a b : ℚ) : Option ℚ :=
  if b.den = 1 then
    if a = 0 ∧ b < 0 then none else some (a ^ b.num)
  else P.powNI a b

/-- The symbol of a binary operator as it appears in traces. -/
def opSymbol : Op → JStr
  | .add => "+".toList
  | .sub => "-".toList
  | .mul => "×".toList
  | .div => "÷".toList
  | .pow => "x^y".toList

/-- `calculate` (`Calculator.tsx`): the five binary operations, `none`
encoding a non-finite result (division by zero gives `±Infinity`/`NaN`). -/
def calculate (P : MathPrims) (prev current : ℚ) : Op → Option ℚ
  | .add => some (prev + current)
  | .sub => some (prev - current)
  | .mul => some (prev * current)
  | .div => if current = 0 then none else some (prev / current)
  | .pow => jsPow P prev current

/-- Calculator engine state (`displayValue`, `previousValue`, `operator`,
`waitingForOperand`, `calculationString`). -/
structure CalcState where
  displayValue : Disp
  previousValue : Option ℚ
  operator : Option Op
  waitingForOperand : Bool
  calculationString : JStr
  deriving DecidableEq

/-- The identity state produced by `clearAll`. -/
def initState : CalcState :=
  ⟨.num 0, none, none, true, []⟩

/-- `handleCalculationError`: the absorbing error state. -/
def errorState : CalcState :=
  ⟨.err, none, none, true, []⟩

/-- A history entry as handed to `addHistoryItem` (the ledger adds `id` and
`date` itself). -/
inductive HType where
  | scan
  | manual
  | expense
  deriving DecidableEq

/-- The payload of `addHistoryItem` (`Omit HistoryItem id date`). -/
structure HEntry where
  type : HType
  total : ℚ
  calculation : Option JStr
  description : Option JStr
  category : Option JStr
  imageDataUrl : Option JStr
  deriving DecidableEq

/-- `clearAll`. -/
def clearAll (_s : CalcState) : CalcState := initState

/-- `clearEntry`: full reset from the error state, otherwise only the
display returns to `0`. -/
def clearEntry (s : CalcState) : CalcState :=
  if s.displayValue = .err then initState
  else { s with displayValue := .num 0 }

/-- `toggleSign`: negates a nonzero entry; no-op on zero and in the error
state. -/
def toggleSign (s : CalcState) : CalcState :=
  match s.displayValue with
  | .err => s
  | .num v => if v ≠ 0 then { s with displayValue := .num (v * -1) } else s

/-- `backspace`: no-op in the error state or when awaiting an operand.  The
value-level effect of deleting the last character of the entry text is
modelled for integer entries (drop the last decimal digit); no claim under
verification exercises this branch. -/
def backspace (s : CalcState) : CalcState :=
  match s.displayValue with
  | .err => s
  | .num v =>
      if s.waitingForOperand then s
      else
        let w : ℚ := if 0 ≤ v then ((⌊v / 10⌋ : ℤ) : ℚ) else -((⌊-v / 10⌋ : ℤ) : ℚ)
        { s with displayValue := .num w }

/-- `inputDigit`: a digit leaves the error state and starts a fresh entry;
starts a fresh entry when awaiting an operand; otherwise appends to the
entry (value-level: exact for integer entries; the 15-character cap is a
property of the display text, not of the value). -/
def inputDigit (d : Fin 10) (s : CalcState) : CalcState :=
  match s.displayValue with
  | .err => { s with displayValue := .num (d : ℚ), waitingForOperand := false }
  | .num v =>
      if s.waitingForOperand then
        { s with displayValue := .num (d : ℚ), waitingForOperand := false }
      else { s with displayValue := .num (v * 10 + (d : ℚ)) }

/-- `inputDecimal`: starts `0.` when awaiting an operand; otherwise appends
a decimal point to the entry text, which leaves the entry's parsed value
unchanged; no-op in the error state. -/
def inputDecimal (s : CalcState) : CalcState :=
  match s.displayValue with
  | .err => s
  | .num _ =>
      if s.waitingForOperand then
        { s with displayValue := .num 0, waitingForOperand := false }
      else s

/-- `inputPercent`: divides the entry by 100 in place; no-op in the error
state. -/
def inputPercent (s : CalcState) : CalcState :=
  match s.displayValue with
  | .err => s
  | .num v => { s with displayValue := .num (v / 100) }

/-- `performOperation` (binary operator key): stashes the entry as the left
operand, or first resolves a pending operation; a non-finite intermediate
result goes to the error state. -/
def performOperation (P : MathPrims) (nextOperator : Op) (s : CalcState) :
    CalcState :=
  match s.displayValue with
  | .err => s
  | .num inputValue =>
      match s.previousValue with
      | none =>
          { s with previousValue := some inputValue,
                   waitingForOperand := true,
                   operator := some nextOperator,
                   calculationString :=
                     numStr inputValue ++ ' ' :: opSymbol nextOperator }
      | some prev =>
          match s.operator with
          | none =>
              { s with waitingForOperand := true,
                       operator := some nextOperator,
                       calculationString :=
                         numStr inputValue ++ ' ' :: opSymbol nextOperator }
          | some op =>
              match calculate P prev inputValue op with
              | none => errorState
              | some result =>
                  { displayValue := .num result,
                    previousValue := some result,
                    operator := some nextOperator,
                    waitingForOperand := true,
                    calculationString :=
                      numStr inputValue ++ ' ' :: opSymbol nextOperator }

/-- `performUnaryOperation`: the result of a unary scientific operation on
the current entry (`sq` is `Math.pow(x, 2)` in the source). -/
def unaryResult (P : MathPrims) (u : UOp) (v : ℚ) : Option ℚ :=
  match u with
  | .sq => jsPow P v 2
  | .sqrt => P.sqrtV v
  | .sin => P.sinDeg v
  | .cos => P.cosDeg v
  | .tan => P.tanDeg v
  | .log => P.log10V v
  | .ln => P.lnV v

/-- `performUnaryOperation`: replaces the entry with the result and awaits
an operand; a non-finite result goes to the error state; no-op in the error
state. -/
def performUnaryOperation (P : MathPrims) (u : UOp) (s : CalcState) :
    CalcState :=
  match s.displayValue with
  | .err => s
  | .num v =>
      match unaryResult P u v with
      | none => errorState
      | some result =>
          { s with displayValue := .num result, waitingForOperand := true }

/-- The double value of a constant key. -/
def constVal (P : MathPrims) : Const → ℚ
  | .piC => P.piV
  | .eC => P.eV

/-- `inputConstant`: a full reset first when in the error state, then the
constant is loaded into the display and the state is `Entering`. -/
def inputConstant (P : MathPrims) (c : Const) (s : CalcState) : CalcState :=
  let s1 := if s.displayValue = .err then initState else s
  { s1 with displayValue := .num (constVal P c), waitingForOperand := false }

/-- `handleEquals`: requires a pending operator and a stashed left operand;
emits a manual history entry on a finite result; enters the error state on a
non-finite result.  (When the display reads `Error`, `parseFloat` yields
`NaN`, every binary operation on `NaN` is non-finite, and the error handler
runs; in the source this situation also requires a pending operator, which
the error handler always clears.) -/
def handleEquals (P : MathPrims) (s : CalcState) : CalcState × Option HEntry :=
  match s.operator, s.previousValue with
  | some op, some prev =>
      match s.displayValue with
      | .err => (errorState, none)
      | .num inputValue =>
          match calculate P prev inputValue op with
          | none => (errorState, none)
          | some result =>
              let fullCalculation :=
                numStr prev ++ ' ' :: opSymbol op ++ ' ' :: numStr inputValue
              ({ displayValue := .num result,
                 previousValue := none,
                 operator := none,
                 waitingForOperand := true,
                 calculationString := fullCalculation ++ " =".toList },
               some ⟨.manual, result, some fullCalculation, none, none, none⟩)
  | _, _ => (s, none)

/-- A concrete instantiation of the `Math` primitives, used to evaluate the
engine theorems on concrete inputs. -/
def trivPrims : MathPrims :=
  ⟨fun _ _ => none, fun _ => none, fun _ => none, fun _ => none,
   fun _ => none, fun _ => none, fun _ => none, 0, 0⟩

/-- Rendering of the digit 5. -/
theorem numStr_five : numStr 5 = ['5'] := by
  simp +decide [numStr, intToChars, natToChars,
    show (5 : ℚ).den = 1 from rfl, show (5 : ℚ).num = 5 from rfl]

/-- Rendering of the digit 9. -/
theorem numStr_nine : numStr 9 = ['9'] := by
  simp +decide [numStr, intToChars, natToChars,
    show (9 : ℚ).den = 1 from rfl, show (9 : ℚ).num = 9 from rfl]

/-- Claim C2: with an operator pending and a left operand stashed, pressing
equals on a finite result `r = calculate(a, op, b)` sets the display to `r`,
emits exactly one `manual` history entry with total `r` and calculation
`a op b`, clears the operator and stashed operand, awaits an operand, and
records the trace `a op b =`; with no operator pending, equals is a no-op
emitting nothing. -/
theorem c2_equals_contract :
    (∀ (P : MathPrims) (s : CalcState) (a b r : ℚ) (op : Op),
      s.previousValue = some a → s.operator = some op →
      s.displayValue = .num b → calculate P a b op = some r →
      handleEquals P s =
        ({ displayValue := .num r, previousValue := none, operator := none,
           waitingForOperand := true,
           calculationString :=
             (numStr a ++ ' ' :: opSymbol op ++ ' ' :: numStr b) ++ " =".toList },
         some ⟨.manual, r,
               some (numStr a ++ ' ' :: opSymbol op ++ ' ' :: numStr b),
               none, none, none⟩))
    ∧ (∀ (P : MathPrims) (s : CalcState), s.operator = none →
        handleEquals P s = (s, none)) := by
  constructor
  · intro P s a b r op h1 h2 h3 h4
    simp [handleEquals, h1, h2, h3, h4]
  · intro P s h
    simp [handleEquals, h]

/-- Witness for claim C2: `5 + 9 =` from the state reached after entering
`5`, `+`, `9`. -/
theorem c2_equals_contract_witness :
    handleEquals trivPrims ⟨.num 9, some 5, some .add, false, []⟩ =
      ({ displayValue := .num 14, previousValue := none, operator := none,
         waitingForOperand := true, calculationString := "5 + 9 =".toList },
       some ⟨.manual, 14, some "5 + 9".toList, none, none, none⟩) := by
  rw [c2_equals_contract.1 trivPrims ⟨.num 9, some 5, some .add, false, []⟩
    5 9 14 .add rfl rfl rfl (by norm_num [calculate])]
  simp +decide [numStr_five, numStr_nine, opSymbol]

/-- Claim C3: a division of any finite `a` by zero on equals — and in
general any binary or unary operation resolving to a non-finite result,
whether from equals, a chained operator press, or a unary key — sends the
engine to the error state (display `Error`, operand and operator cleared,
trace cleared, awaiting an operand) and emits no history entry (the
operator-press and unary handlers emit none by construction). -/
theorem c3_nonfinite_to_error :
    (∀ (P : MathPrims) (s : CalcState) (a : ℚ),
      s.previousValue = some a → s.operator = some .div →
      s.displayValue = .num 0 →
      handleEquals P s = (errorState, none))
    ∧ (∀ (P : MathPrims) (s : CalcState) (a b : ℚ) (op : Op),
      s.previousValue = some a → s.operator = some op →
      s.displayValue = .num b → calculate P a b op = none →
      handleEquals P s = (errorState, none))
    ∧ (∀ (P : MathPrims) (s : CalcState) (v : ℚ) (u : UOp),
      s.displayValue = .num v → unaryResult P u v = none →
      performUnaryOperation P u s = errorState)
    ∧ (∀ (P : MathPrims) (s : CalcState) (a b : ℚ) (op nextOp : Op),
      s.previousValue = some a → s.operator = some op →
      s.displayValue = .num b → calculate P a b op = none →
      performOperation P nextOp s = errorState) := by
  refine ⟨?_, ?_, ?_, ?_⟩
  · intro P s a h1 h2 h3
    simp [handleEquals, h1, h2, h3, calculate]
  · intro P s a b op h1 h2 h3 h4
    simp [handleEquals, h1, h2, h3, h4]
  · intro P s v u h1 h2
    simp [performUnaryOperation, h1, h2]
  · intro P s a b op nextOp h1 h2 h3 h4
    simp [performOperation, h1, h2, h3, h4]

/-- Witness for claim C3: `5 ÷ 0 =` from the state reached after entering
`5`, `÷`, `0`. -/
theorem c3_nonfinite_to_error_witness :
    handleEquals trivPrims ⟨.num 0, some 5, some .div, false, []⟩ =
      (errorState, none) :=
  c3_nonfinite_to_error.1 trivPrims ⟨.num 0, some 5, some .div, false, []⟩
    5 rfl rfl rfl

/-- Claim C6: when the display reads `Error` (which in the source happens
only through `handleCalculationError`, so the operator is always cleared),
every input other than a digit, a clear, or a constant leaves the state
unchanged and emits nothing; a digit exits the error state and starts a
fresh entry; either clear resets to the identity state; and a constant key
first performs a full reset and then loads the constant, entering
`Entering`. -/
theorem c6_error_state_absorbing :
    ∀ (P : MathPrims) (s : CalcState),
      s.displayValue = .err → s.operator = none →
      toggleSign s = s
      ∧ backspace s = s
      ∧ inputDecimal s = s
      ∧ inputPercent s = s
      ∧ (∀ op : Op, performOperation P op s = s)
      ∧ (∀ u : UOp, performUnaryOperation P u s = s)
      ∧ handleEquals P s = (s, none)
      ∧ (∀ d : Fin 10, inputDigit d s =
          { s with displayValue := .num (d : ℚ), waitingForOperand := false })
      ∧ clearEntry s = initState
      ∧ clearAll s = initState
      ∧ (∀ c : Const, inputConstant P c s =
          { initState with displayValue := .num (constVal P c),
                           waitingForOperand := false }) := by
  intro P s h1 h2
  refine ⟨?_, ?_, ?_, ?_, ?_, ?_, ?_, ?_, ?_, ?_, ?_⟩
  · simp [toggleSign, h1]
  · simp [backspace, h1]
  · simp [inputDecimal, h1]
  · simp [inputPercent, h1]
  · intro op
    simp [performOperation, h1]
  · intro u
    simp [performUnaryOperation, h1]
  · simp [handleEquals, h2]
  · intro d
    simp [inputDigit, h1]
  · simp [clearEntry, h1]
  · simp [clearAll]
  · intro c
    simp [inputConstant, h1]

/-- Witness for claim C6: the conclusion at the canonical error state. -/
theorem c6_error_state_absorbing_witness :
    toggleSign errorState = errorState
    ∧ backspace errorState = errorState
    ∧ inputDecimal errorState = errorState
    ∧ inputPercent errorState = errorState
    ∧ (∀ op : Op, performOperation trivPrims op errorState = errorState)
    ∧ (∀ u : UOp, performUnaryOperation trivPrims u errorState = errorState)
    ∧ handleEquals trivPrims errorState = (errorState, none)
    ∧ (∀ d : Fin 10, inputDigit d errorState =
        { errorState with displayValue := .num (d : ℚ),
                          waitingForOperand := false })
    ∧ clearEntry errorState = initState
    ∧ clearAll errorState = initState
    ∧ (∀ c : Const, inputConstant trivPrims c errorState =
        { initState with displayValue := .num (constVal trivPrims c),
                         waitingForOperand := false }) :=
  c6_error_state_absorbing trivPrims errorState rfl rfl

/-- Claim C7: a unary scientific operation with a finite result only
replaces the displayed entry and awaits an operand — the stashed left
operand, the pending operator, and the trace are untouched; consequently
`5 + 3 [sq] =` computes `5 + 9 = 14` (not `(5+3)²`), tracing `5 + 9 =`. -/
theorem c7_unary_frame :
    (∀ (P : MathPrims) (s : CalcState) (u : UOp) (v r : ℚ),
      s.displayValue = .num v → unaryResult P u v = some r →
      performUnaryOperation P u s =
        { s with displayValue := .num r, waitingForOperand := true })
    ∧ (∀ P : MathPrims,
        handleEquals P (performUnaryOperation P .sq
          (inputDigit 3 (performOperation P .add (inputDigit 5 initState)))) =
        ({ displayValue := .num 14, previousValue := none, operator := none,
           waitingForOperand := true, calculationString := "5 + 9 =".toList },
         some ⟨.manual, 14, some "5 + 9".toList, none, none, none⟩)) := by
  constructor
  · intro P s u v r h1 h2
    simp [performUnaryOperation, h1, h2]
  · intro P
    have h5 : ((5 : Fin 10) : ℚ) = 5 := by
      norm_num [show ((5 : Fin 10) : ℕ) = 5 from rfl]
    have h3 : ((3 : Fin 10) : ℚ) = 3 := by
      norm_num [show ((3 : Fin 10) : ℕ) = 3 from rfl]
    simp +decide [inputDigit, performOperation, performUnaryOperation,
      handleEquals, unaryResult, jsPow, calculate, initState, h5, h3,
      numStr_five, numStr_nine, opSymbol,
      show (2 : ℚ).den = 1 from rfl, show (2 : ℚ).num = 2 from rfl]
    norm_num [numStr_nine]

/-- Witness for claim C7: squaring the entry `3` while `5 +` is pending
replaces only the entry. -/
theorem c7_unary_frame_witness :
    performUnaryOperation trivPrims .sq
      ⟨.num 3, some 5, some .add, false, "5 +".toList⟩ =
    { (⟨.num 3, some 5, some .add, false, "5 +".toList⟩ : CalcState) with
      displayValue := .num 9, waitingForOperand := true } :=
  c7_unary_frame.1 trivPrims ⟨.num 3, some 5, some .add, false, "5 +".toList⟩
    .sq 3 9 rfl
    (by norm_num [unaryResult, jsPow,
          show (2 : ℚ).den = 1 from rfl, show (2 : ℚ).num = 2 from rfl])

/-- `parseSanitizedAmount` (`Calculator.tsx`): permissive string-to-number
parsing used by the staging screen, defaulting every unusable value to 0. -/
def parseSanitizedAmount : JSValue → ℚ
  | .numV (.fin q) => q
  | .numV _ => 0
  | .strV s => (jsParseFloat (cleanAmountStr s)).getD 0
  | _ => 0

/-- Two-digit zero padding for `toFixed(2)`. -/
def pad2 (m : ℕ) : JStr :=
  if m < 10 then '0' :: natToChars m else natToChars m

/-- `x.toFixed(2)` as a string (exact for the values produced here, which
are already rounded to two decimals). -/
def toFixed2 (q : ℚ) : JStr :=
  let n : ℤ := round (q * 100)
  (if n < 0 then ['-'] else []) ++ natToChars (n.natAbs / 100)
    ++ '.' :: pad2 (n.natAbs % 100)

/-- An editable line item of the staging screen (`EditableItem`). -/
structure EditableItem where
  description : JStr
  amount : JStr
  deriving DecidableEq

/-- `EditableScanResult` (`Calculator.tsx`). -/
structure EditableScanResult where
  total : ℚ
  category : JStr
  items : List EditableItem
  deriving DecidableEq

/-- The editable mirror built in `processImage` on a successful scan. -/
def toEditable (r : CalculationResult) : EditableScanResult :=
  ⟨r.total, r.category,
   r.items.map (fun it => ⟨it.description, toFixed2 it.amount⟩)⟩

/-- Lower-casing for the case-insensitive category comparisons. -/
def lowerStr (s : JStr) : JStr := s.map Char.toLower

/-- `Array.prototype.sort()` on strings: lexicographic ascending. -/
def sortStrList (l : List JStr) : List JStr :=
  List.insertionSort (· ≤ ·) l

/-- The component state touched by the scan workflow, together with the
category list lifted from `App.tsx`. -/
structure AppState where
  calcSt : CalcState
  scanResult : Option CalculationResult
  editableResult : Option EditableScanResult
  imageDataUrl : Option JStr
  isScanDetailsVisible : Bool
  isLoading : Bool
  isScannerOpen : Bool
  errorMsg : Option JStr
  customCategories : List JStr
  deriving DecidableEq

/-- Error message of the terminal rejection in `processImage`. -/
def noValidDataMsg : JStr :=
  "Could not detect any valid line items or amounts on the receipt.".toList

/-- `processImage` (`Calculator.tsx`).  The asynchronous file read plus AI
call is modelled by `resp` (an error carries the failure message); the
`finally` block clears the loading and scanner flags on every path, and the
`catch` block records the single error message and resets the captured
image.  `processImage` never calls `addHistoryItem`, hence the constant
`none` entry. -/
def processImage (resp : Except JStr JSValue) (dataUrl : JStr)
    (st : AppState) : AppState × Option HEntry :=
  let base := { st with isLoading := false, isScannerOpen := false,
                        errorMsg := none }
  match resp with
  | .error msg => ({ base with errorMsg := some msg, imageDataUrl := none }, none)
  | .ok raw =>
      match validateAndSanitizeScanResult raw with
      | .error msg =>
          ({ base with errorMsg := some msg, imageDataUrl := none }, none)
      | .ok r =>
          if r.items = [] ∨ r.total ≤ 0 then
            ({ base with errorMsg := some noValidDataMsg,
                         imageDataUrl := none }, none)
          else
            ({ base with imageDataUrl := some dataUrl,
                         scanResult := some r,
                         editableResult := some (toEditable r),
                         isScanDetailsVisible := true }, none)

/-- `handleConfirmScan` (`Calculator.tsx`): commits a staged scan with at
least one item (folding the total into the calculator, inserting a new
category case-insensitively, emitting a `scan` history entry), and in every
case clears the staging state back to idle. -/
def handleConfirmScan (st : AppState) : AppState × Option HEntry :=
  let cleared := fun (s : AppState) =>
    { s with isScanDetailsVisible := false, scanResult := none,
             editableResult := none, imageDataUrl := none }
  match st.editableResult with
  | some er =>
      if er.items ≠ [] then
        let total := er.total
        let calculationExpression :=
          List.intercalate " + ".toList
            (er.items.map (fun it => numStr (parseSanitizedAmount (.strV it.amount))))
        let finalCategory := trimStr er.category
        let cats :=
          if finalCategory ≠ [] ∧
             ¬ (st.customCategories.any (fun c => lowerStr c = lowerStr finalCategory)) then
            sortStrList (st.customCategories ++ [finalCategory])
          else st.customCategories
        (cleared
          { st with
              calcSt := { displayValue := .num total, previousValue := none,
                          operator := none, waitingForOperand := true,
                          calculationString := calculationExpression ++ " =".toList },
              customCategories := cats },
         some ⟨.scan, total, some calculationExpression, none,
               some finalCategory, st.imageDataUrl⟩)
      else (cleared st, none)
  | none => (cleared st, none)

/-- The sanitizer only ever throws its fixed format-error message. -/
theorem validate_error_msg {raw : JSValue} {m : JStr}
    (h : validateAndSanitizeScanResult raw = .error m) : m = invalidFormatMsg := by
  unfold validateAndSanitizeScanResult at h
  split at h
  · injection h with h
    exact h.symm
  · exact absurd h (by simp)

/-- Claim C4: a scan fails with the `NoValidDataError` message exactly when
sanitization succeeded but produced an empty item list or a total ≤ 0; no
scan (successful or failed) ever writes a history entry from `processImage`;
and every failure only records the single error message, clears the captured
image and the transient flags, and leaves everything else — in particular
the staging fields and the calculator — unchanged. -/
theorem c4_scan_terminal_rejection :
    (∀ (raw : JSValue) (dataUrl : JStr) (st : AppState),
      ((processImage (.ok raw) dataUrl st).1.errorMsg = some noValidDataMsg ↔
        ∃ r, validateAndSanitizeScanResult raw = .ok r ∧
          (r.items = [] ∨ r.total ≤ 0)))
    ∧ (∀ (resp : Except JStr JSValue) (dataUrl : JStr) (st : AppState),
        (processImage resp dataUrl st).2 = none)
    ∧ (∀ (resp : Except JStr JSValue) (dataUrl : JStr) (st : AppState)
         (m : JStr),
        (processImage resp dataUrl st).1.errorMsg = some m →
        (processImage resp dataUrl st).1 =
          { st with isLoading := false, isScannerOpen := false,
                    errorMsg := some m, imageDataUrl := none }) := by
  refine ⟨?_, ?_, ?_⟩
  · intro raw dataUrl st
    constructor
    · intro h
      cases hv : validateAndSanitizeScanResult raw with
      | error msg =>
          simp [processImage, hv] at h
          have := validate_error_msg hv
          subst this
          exact absurd h.symm (by decide)
      | ok r =>
          by_cases hbad : r.items = [] ∨ r.total ≤ 0
          · exact ⟨r, rfl, hbad⟩
          · simp [processImage, hv, hbad] at h
    · rintro ⟨r, hr, hbad⟩
      simp [processImage, hr, hbad]
  · intro resp dataUrl st
    cases resp with
    | error msg => rfl
    | ok raw =>
        cases hv : validateAndSanitizeScanResult raw with
        | error msg => simp [processImage, hv]
        | ok r =>
            by_cases hbad : r.items = [] ∨ r.total ≤ 0 <;>
              simp [processImage, hv, hbad]
  · intro resp dataUrl st m h
    cases resp with
    | error msg =>
        simp [processImage] at h ⊢
        simp [h]
    | ok raw =>
        cases hv : validateAndSanitizeScanResult raw with
        | error msg =>
            simp [processImage, hv] at h ⊢
            simp [h]
        | ok r =>
            by_cases hbad : r.items = [] ∨ r.total ≤ 0
            · simp [processImage, hv, hbad] at h ⊢
              simp [h]
            · simp [processImage, hv, hbad] at h

/-- A concrete idle component state, used by witnesses. -/
def idleApp : AppState :=
  ⟨initState, none, none, none, false, false, false, none, []⟩

/-- Witness for claim C4: a failed transport call surfaces its message and
touches nothing else. -/
theorem c4_scan_terminal_rejection_witness :
    (processImage (.error "boom".toList) [] idleApp).1 =
      { idleApp with isLoading := false, isScannerOpen := false,
                     errorMsg := some "boom".toList, imageDataUrl := none } :=
  c4_scan_terminal_rejection.2.2 (.error "boom".toList) [] idleApp
    "boom".toList rfl

/-- Claim C10: confirming a staged scan whose editable item list is empty
writes no history entry and leaves the calculator state and the category set
unchanged, but still clears the entire staging state (scan result, editable
result, captured image, details flag) back to idle. -/
theorem c10_confirm_empty_staging :
    ∀ (st : AppState) (er : EditableScanResult),
      st.editableResult = some er → er.items = [] →
      handleConfirmScan st =
        ({ st with isScanDetailsVisible := false, scanResult := none,
                   editableResult := none, imageDataUrl := none }, none) := by
  intro st er h1 h2
  simp [handleConfirmScan, h1, h2]

/-- Witness for claim C10: a staged scan with an empty item list. -/
theorem c10_confirm_empty_staging_witness :
    handleConfirmScan
      { idleApp with editableResult := some ⟨0, "Groceries".toList, []⟩,
                     isScanDetailsVisible := true } =
      ({ { idleApp with editableResult := some ⟨0, "Groceries".toList, []⟩,
                        isScanDetailsVisible := true } with
          isScanDetailsVisible := false, scanResult := none,
          editableResult := none, imageDataUrl := none }, none) :=
  c10_confirm_empty_staging
    { idleApp with editableResult := some ⟨0, "Groceries".toList, []⟩,
                   isScanDetailsVisible := true }
    ⟨0, "Groceries".toList, []⟩ rfl rfl

/-- `handleAddCategory` (history view): trims, rejects the empty string and
case-insensitive duplicates, otherwise appends and sorts. -/
def handleAddCategory (cats : List JStr) (input : JStr) : List JStr :=
  let newCat := trimStr input
  if newCat = [] then cats
  else if cats.any (fun c => lowerStr c = lowerStr newCat) then cats
  else sortStrList (cats ++ [newCat])

/-- `handleRenameCategory` (history view): trims, rejects the empty string,
the unchanged name and case-insensitive duplicates, otherwise replaces the
old name and sorts.  (The cascading rename of history entries is outside the
category set.) -/
def handleRenameCategory (cats : List JStr) (oldName rawNew : List Char) :
    List JStr :=
  let newName := trimStr rawNew
  if newName = [] ∨ newName = oldName then cats
  else if cats.any (fun c => lowerStr c = lowerStr newName) then cats
  else sortStrList (cats.map (fun c => if c = oldName then newName else c))

/-- `handleDeleteCategory` (history view): removes the entry, without
re-sorting. -/
def handleDeleteCategory (cats : List JStr) (target : JStr) : List JStr :=
  cats.filter (fun c => c ≠ target)

/-- One category-management operation. -/
inductive CatOp where
  | add (input : JStr)
  | rename (oldName rawNew : JStr)
  | del (target : JStr)

/-- Dispatch of a category operation. -/
def applyCatOp (cats : List JStr) : CatOp → List JStr
  | .add input => handleAddCategory cats input
  | .rename o n => handleRenameCategory cats o n
  | .del t => handleDeleteCategory cats t

/-- A sequence of category operations. -/
def applyCatOps (cats : List JStr) (ops : List CatOp) : List JStr :=
  ops.foldl applyCatOp cats

/-- The application's initial category set (`App.tsx`), in its source
order — which is not sorted ascending. -/
def initialCategories : List JStr :=
  ["Food & Drink".toList, "Groceries".toList, "Shopping".toList,
   "Transport".toList, "Utilities".toList, "Health".toList,
   "Entertainment".toList, "Home".toList, "Personal Care".toList,
   "Uncategorized".toList]

/-- No two entries of the list agree up to letter case. -/
def noCaseDup (l : List JStr) : Prop := (l.map lowerStr).Nodup

/-- `noCaseDup` is invariant under permutation. -/
theorem noCaseDup_perm {l l2 : List JStr} (h : l.Perm l2) (hd : noCaseDup l) :
    noCaseDup l2 :=
  ((h.map lowerStr).nodup_iff).mp hd

/-- Every single category operation preserves `noCaseDup`. -/
theorem noCaseDup_applyCatOp (cats : List JStr) (op : CatOp)
    (h : noCaseDup cats) : noCaseDup (applyCatOp cats op) := by
  cases op with
  | add input =>
      show noCaseDup (handleAddCategory cats input)
      unfold handleAddCategory
      dsimp only
      split
      · exact h
      · split
        · exact h
        · rename_i hne hany
          refine noCaseDup_perm (List.perm_insertionSort _ _).symm ?_
          unfold noCaseDup
          rw [List.map_append]
          rw [List.nodup_append]
          refine ⟨h, by simp, ?_⟩
          intro a ha hb
          simp only [List.map_cons, List.map_nil, List.mem_singleton] at hb
          subst hb
          simp only [List.any_eq_true, decide_eq_true_eq, not_exists,
            not_and] at hany
          obtain ⟨c, hc, hlc⟩ := List.mem_map.mp ha
          exact hany c hc hlc
  | rename oldName rawNew =>
      show noCaseDup (handleRenameCategory cats oldName rawNew)
      unfold handleRenameCategory
      dsimp only
      split
      · exact h
      · split
        · exact h
        · rename_i hne hany
          refine noCaseDup_perm (List.perm_insertionSort _ _).symm ?_
          unfold noCaseDup
          rw [List.map_map]
          simp only [List.any_eq_true, decide_eq_true_eq, not_exists,
            not_and] at hany
          have hnodup : cats.Nodup := h.of_map lowerStr
          refine List.Nodup.map_on ?_ hnodup
          intro x hx y hy hxy
          simp only [Function.comp_apply] at hxy
          by_cases hxo : x = oldName
          · by_cases hyo : y = oldName
            · rw [hxo, hyo]
            · rw [if_pos hxo, if_neg hyo] at hxy
              exact absurd hxy.symm (hany y hy)
          · by_cases hyo : y = oldName
            · rw [if_neg hxo, if_pos hyo] at hxy
              exact absurd hxy (hany x hx)
            · rw [if_neg hxo, if_neg hyo] at hxy
              exact List.inj_on_of_nodup_map h hx hy hxy
  | del target =>
      show noCaseDup (handleDeleteCategory cats target)
      unfold handleDeleteCategory noCaseDup
      exact ((List.filter_sublist cats).map lowerStr).nodup h

/-- Counterexample to claim C8: the initial category set of `App.tsx` is not
sorted ascending, and deleting a category only filters the list without
re-sorting, so after the single operation `delete "Groceries"` the set is
not sorted. -/
theorem c8_counterexample :
    ¬ List.Sorted (· ≤ ·)
        (applyCatOps initialCategories [.del ("Groceries".toList)]) := by
  decide

/-- Claim C8 as amended: over every sequence of add/rename/delete operations
from the initial set the category set never contains two entries differing
only in case; and a successful add or rename leaves the set sorted
ascending.  Sortedness after *every* operation fails, because the initial
set is unsorted and deletions (and rejected operations) preserve the
existing order — see the counterexample. -/
theorem c8_category_invariant_amended :
    (∀ ops : List CatOp, noCaseDup (applyCatOps initialCategories ops))
    ∧ (∀ (cats : List JStr) (input : JStr),
        trimStr input ≠ [] →
        cats.any (fun c => lowerStr c = lowerStr (trimStr input)) = false →
        List.Sorted (· ≤ ·) (handleAddCategory cats input))
    ∧ (∀ (cats : List JStr) (oldName rawNew : JStr),
        ¬ (trimStr rawNew = [] ∨ trimStr rawNew = oldName) →
        cats.any (fun c => lowerStr c = lowerStr (trimStr rawNew)) = false →
        List.Sorted (· ≤ ·) (handleRenameCategory cats oldName rawNew)) := by
  refine ⟨?_, ?_, ?_⟩
  · have hgen : ∀ (ops : List CatOp) (cats : List JStr), noCaseDup cats →
        noCaseDup (applyCatOps cats ops) := by
      intro ops
      induction ops with
      | nil => intro cats h; exact h
      | cons op rest ih =>
          intro cats h
          exact ih (applyCatOp cats op) (noCaseDup_applyCatOp cats op h)
    intro ops
    exact hgen ops initialCategories (by unfold noCaseDup; decide)
  · intro cats input h1 h2
    unfold handleAddCategory
    dsimp only
    rw [if_neg h1, if_neg (by simp [h2])]
    exact List.sorted_insertionSort _ _
  · intro cats oldName rawNew h1 h2
    unfold handleRenameCategory
    dsimp only
    rw [if_neg h1, if_neg (by simp [h2])]
    exact List.sorted_insertionSort _ _

/-- Witness for the amended claim C8: adding `Baby` to the initial set is a
successful add and produces a sorted set. -/
theorem c8_category_invariant_amended_witness :
    List.Sorted (· ≤ ·) (handleAddCategory initialCategories "Baby".toList) :=
  c8_category_invariant_amended.2.1 initialCategories "Baby".toList
    (by decide) (by decide)

/-- Justification for the operator-cleared hypothesis of the claim C6
theorem: the only handlers that can turn a non-error display into `Error`
are the binary-operator press, the unary operations and equals, and each of
them produces exactly the canonical `errorState` (so any reachable state
whose display reads `Error` has no pending operator or operand and an empty
trace). -/
theorem error_display_is_errorState :
    (∀ (P : MathPrims) (s : CalcState) (op : Op),
      s.displayValue ≠ .err → (performOperation P op s).displayValue = .err →
      performOperation P op s = errorState)
    ∧ (∀ (P : MathPrims) (s : CalcState) (u : UOp),
      s.displayValue ≠ .err →
      (performUnaryOperation P u s).displayValue = .err →
      performUnaryOperation P u s = errorState)
    ∧ (∀ (P : MathPrims) (s : CalcState),
      s.displayValue ≠ .err → (handleEquals P s).1.displayValue = .err →
      (handleEquals P s).1 = errorState) := by
  refine ⟨?_, ?_, ?_⟩
  · intro P s op h1 h2
    cases hd : s.displayValue with
    | err => exact absurd hd h1
    | num v =>
        cases hp : s.previousValue with
        | none => simp [performOperation, hd, hp] at h2
        | some prev =>
            cases ho : s.operator with
            | none => simp [performOperation, hd, hp, ho] at h2
            | some op0 =>
                cases hc : calculate P prev v op0 with
                | none => simp [performOperation, hd, hp, ho, hc]
                | some res => simp [performOperation, hd, hp, ho, hc] at h2
  · intro P s u h1 h2
    cases hd : s.displayValue with
    | err => exact absurd hd h1
    | num v =>
        cases hu : unaryResult P u v with
        | none => simp [performUnaryOperation, hd, hu]
        | some res => simp [performUnaryOperation, hd, hu] at h2
  · intro P s h1 h2
    cases ho : s.operator with
    | none => simp [handleEquals, ho] at h2 ⊢; exact absurd h2 h1
    | some op =>
        cases hp : s.previousValue with
        | none => simp [handleEquals, ho, hp] at h2 ⊢; exact absurd h2 h1
        | some prev =>
            cases hd : s.displayValue with
            | err => exact absurd hd h1
            | num v =>
                cases hc : calculate P prev v op with
                | none => simp [handleEquals, ho, hp, hd, hc]
                | some res => simp [handleEquals, ho, hp, hd, hc] at h2
